import Mathlib

/-!
Verification of the fastlane leader-aware QUIC delivery engine.

This file gives a shallow embedding, in Lean 4, of the pure logic of the
fastlane client (slot estimation, schedule rotation, leader selection,
error classification, retry loop, signature extraction, connection cache
bookkeeping) and proves the specified properties about it.

Machine integers (`u64` slots) are modelled as `Nat`, with explicit
`% 2^64`, saturation or checked arithmetic at the spots where the source
uses wrapping, saturating or checked operations.
-/

set_option autoImplicit false

namespace Fastlane

/-- Upper bound of the u64 range: `2^64`. -/
def U64MOD : Nat := 2 ^ 64

/-- The constant `MAX_SLOT_SKIP_DISTANCE = 48` from `tracker/mod.rs`. -/
def MAX_SLOT_SKIP_DISTANCE : Nat := 48

/-- The constant `RECENT_LEADER_SLOTS_CAPACITY = 48` from `tracker/mod.rs`. -/
def RECENT_LEADER_SLOTS_CAPACITY : Nat := 48

/-- `SlotEvent` from `tracker/slots_tracker.rs`: start or end of a slot. -/
inductive SlotEvent where
  | Start (slot : Nat)
  | End (slot : Nat)
  deriving DecidableEq, Repr

namespace SlotEvent

/-- `SlotEvent::slot`: the slot number of the event. -/
def slot : SlotEvent → Nat
  | .Start s => s
  | .End s => s

/-- `SlotEvent::is_start`: whether this is a `Start` event. -/
def is_start : SlotEvent → Bool
  | .Start _ => true
  | .End _ => false

end SlotEvent

/-- The comparator used by `estimate_current_slot`: slot ascending, with
`Start` events before `End` events for the same slot.  `eventLE a b` is
true when `a` may be placed before `b`. -/
def eventLE (a b : SlotEvent) : Bool :=
  a.slot < b.slot || (a.slot == b.slot && (a.is_start || !b.is_start))

/-- Insert an event into a list sorted by `eventLE`. -/
def insertEvent (x : SlotEvent) : List SlotEvent → List SlotEvent
  | [] => [x]
  | y :: ys => if eventLE x y then x :: y :: ys else y :: insertEvent x ys

/-- Sorting of the copied ring performed by `estimate_current_slot`
(`sort_unstable_by` with the slot-then-start comparator; ties under the
comparator are identical events, so any correct sort yields this list). -/
def sortEvents : List SlotEvent → List SlotEvent
  | [] => []
  | x :: xs => insertEvent x (sortEvents xs)

/-- Rust's `Iterator::rposition`: index of the last element satisfying
the predicate, if any. -/
def rposition (p : SlotEvent → Bool) : List SlotEvent → Option Nat
  | [] => none
  | x :: xs =>
    match rposition p xs with
    | some j => some (j + 1)
    | none => if p x then some 0 else none

/-- u64 `saturating_add 1` used on the `End` branch of the estimator. -/
def satAdd1 (n : Nat) : Nat := min (n + 1) (U64MOD - 1)

/-- The index picked by the estimator:
`sorted.iter().rposition(pred).unwrap_or(fallback)`. -/
def pickIndex (sorted : List SlotEvent) (bound fb : Nat) : Nat :=
  (rposition (fun e => e.slot ≤ bound) sorted).getD fb

/-- `SlotsTracker::estimate_current_slot` from `tracker/slots_tracker.rs`,
as a function of the event ring and the stored `current_slot`.  The u64
sums `median_slot + offset` and `expected_current + MAX_SLOT_SKIP_DISTANCE`
are modelled with wraparound (`% U64MOD`), the release-build semantics of
the source's `+`; a debug build panics on the same overflow. -/
def estimate_current_slot (ring : List SlotEvent) (current : Nat) : Nat :=
  if ring.isEmpty then current
  else
    let sorted := sortEvents ring
    let max_idx := sorted.length - 1
    let median_idx := max_idx / 2
    let median_slot := (sorted.getD median_idx (.Start 0)).slot
    let expected_current := (median_slot + (max_idx - median_idx)) % U64MOD
    let max_reasonable := (expected_current + MAX_SLOT_SKIP_DISTANCE) % U64MOD
    let idx := pickIndex sorted max_reasonable median_idx
    let slot_event := sorted.getD idx (.Start 0)
    if slot_event.is_start then slot_event.slot else satAdd1 slot_event.slot

/-- State of a `SlotsTracker`: the bounded ring of recent events and the
current estimated slot. -/
structure SlotsTracker where
  recent_events : List SlotEvent
  current_slot : Nat
  deriving DecidableEq, Repr

/-- `SlotsTracker::new`. -/
def SlotsTracker.new : SlotsTracker := ⟨[], 0⟩

/-- `SlotsTracker::record`: push the event, trim the ring to capacity 48
from the front, and re-estimate the current slot. -/
def SlotsTracker.record (st : SlotsTracker) (event : SlotEvent) : SlotsTracker :=
  let ring := st.recent_events ++ [event]
  let ring :=
    if RECENT_LEADER_SLOTS_CAPACITY < ring.length then
      ring.drop (ring.length - RECENT_LEADER_SLOTS_CAPACITY)
    else ring
  ⟨ring, estimate_current_slot ring st.current_slot⟩

/-- `SlotsTracker::record_start`. -/
def SlotsTracker.record_start (st : SlotsTracker) (slot : Nat) : SlotsTracker :=
  st.record (.Start slot)

/-- `SlotsTracker::record_end`. -/
def SlotsTracker.record_end (st : SlotsTracker) (slot : Nat) : SlotsTracker :=
  st.record (.End slot)

/-- `SlotsTracker::record_monotonic`: no-op unless `slot > current_slot`,
in which case the ring is replaced by a single `Start` event. -/
def SlotsTracker.record_monotonic (st : SlotsTracker) (slot : Nat) : SlotsTracker :=
  if slot ≤ st.current_slot then st
  else ⟨[SlotEvent.Start slot], slot⟩

/-- The `tracker_from_slots` test helper: record `Start` then `End` for
each listed slot in order, starting from a fresh tracker. -/
def tracker_from_slots (slots : List Nat) : SlotsTracker :=
  slots.foldl (fun st s => (st.record_start s).record_end s) SlotsTracker.new

/-- Modelled from the spec's words (§4.1): the greatest index of the
sorted ring whose slot is at most the bound, with the given fallback
when no index qualifies. -/
def specGreatestIdx (sorted : List SlotEvent) (bound fb : Nat) : Nat :=
  if sorted.any (fun e => e.slot ≤ bound) then
    Nat.findGreatest (fun i => (sorted.getD i (.Start 0)).slot ≤ bound) (sorted.length - 1)
  else fb

/-- Modelled from the spec's words (§4.1): sort the ring by
(slot ascending, Start before End); with `n` the length and
`mid = (n - 1) div 2`, take `expected = events[mid].slot + (n - 1 - mid)`,
cap at `max_reasonable = expected + 48`, pick the greatest index whose
slot is at most `max_reasonable` (falling back to `mid`), and return
that event's slot, plus one for an `End`. -/
def specEstimate (ring : List SlotEvent) (current : Nat) : Nat :=
  if ring.isEmpty then current
  else
    let sorted := sortEvents ring
    let n := sorted.length
    let mid := (n - 1) / 2
    let expected := (sorted.getD mid (.Start 0)).slot + (n - 1 - mid)
    let max_reasonable := expected + 48
    let pick := specGreatestIdx sorted max_reasonable mid
    let ev := sorted.getD pick (.Start 0)
    if ev.is_start then ev.slot else ev.slot + 1

/-- `TpuClient::extract_signature` from `client.rs`: byte 0 is the
signature count, bytes 1..65 the first signature.  Bytes are modelled
as `Nat` values (below 256). -/
def extract_signature (tx_data : List Nat) : Except String (List Nat) :=
  if tx_data.isEmpty then .error "Empty transaction data"
  else if tx_data.headD 0 = 0 then .error "Transaction has no signatures"
  else if tx_data.length < 1 + 64 then .error "Transaction too short to contain signature"
  else .ok ((tx_data.drop 1).take 64)

/-- Does the character list contain the pattern as a prefix? -/
def listStartsWith : List Char → List Char → Bool
  | [], _ => true
  | _ :: _, [] => false
  | p :: ps, c :: cs => p == c && listStartsWith ps cs

/-- Does the character list contain the pattern as a contiguous run?
Models Rust's `str::contains` for plain string patterns. -/
def listHasPat (pat : List Char) : List Char → Bool
  | [] => listStartsWith pat []
  | c :: cs => listStartsWith pat (c :: cs) || listHasPat pat cs

/-- Models `error.to_string().to_lowercase()` (messages are ASCII). -/
def strToLowerChars (s : String) : List Char := s.toList.map Char.toLower

/-- `m.contains(pat)` for an already-lowercased message `m`. -/
def strHasPat (m : List Char) (pat : String) : Bool := listHasPat pat.toList m

/-- `TpuErrorCode` from `errors.rs`. -/
inductive TpuErrorCode where
  | ConnectionFailed
  | StreamClosed
  | RateLimited
  | NoLeaders
  | Timeout
  | ValidatorUnreachable
  | ZeroRttRejected
  deriving DecidableEq, Repr

/-- `TpuErrorCode::is_retryable` from `errors.rs`. -/
def TpuErrorCode.is_retryable : TpuErrorCode → Bool
  | .ConnectionFailed => true
  | .StreamClosed => true
  | .RateLimited => true
  | .Timeout => true
  | _ => false

/-- `classify_error` from `errors.rs`: lowercase the message, then match
substrings in the fixed order of the source. -/
def classify_error (msg : String) : TpuErrorCode :=
  let m := strToLowerChars msg
  if strHasPat m "connection refused" || strHasPat m "connection reset" then
    .ConnectionFailed
  else if strHasPat m "stream" && (strHasPat m "closed" || strHasPat m "reset") then
    .StreamClosed
  else if strHasPat m "rate" || strHasPat m "limit" || strHasPat m "too many" ||
      strHasPat m "queue full" || strHasPat m "channel full" then
    .RateLimited
  else if strHasPat m "timeout" || strHasPat m "timed out" then
    .Timeout
  else if strHasPat m "0-rtt" || strHasPat m "early data" then
    .ZeroRttRejected
  else if strHasPat m "no leader" || strHasPat m "no schedule" then
    .NoLeaders
  else
    .ValidatorUnreachable

/-- `is_retryable_error` from `errors.rs`. -/
def is_retryable_error (msg : String) : Bool := (classify_error msg).is_retryable

/-- The constant `MAX_SEND_ATTEMPTS = 3` from `connection_manager.rs`. -/
def MAX_SEND_ATTEMPTS : Nat := 3

/-- `LeaderDeliveryResult` from `connection_manager.rs` (wall-clock
latency omitted). -/
structure LeaderDeliveryResult where
  identity : String
  address : String
  success : Bool
  error : Option String
  error_code : Option TpuErrorCode
  attempts : Nat
  deriving DecidableEq, Repr

/-- The attempt loop of `send_to_leader_with_retry_inner`, driven by an
oracle `outcomes` giving the result of the k-th `send_to_leader_once`
call (`none` is success, `some msg` a failure with message `msg`).  The
fuel counts the remaining iterations of `for attempt in 0..3`; the
returned `Nat` counts the `send_to_leader_once` calls actually made.
As in the source, a failed attempt is followed by the next loop
iteration whether or not the error classifies as retryable (the
retryable check only guards the inter-attempt sleep). -/
def sendLoop (outcomes : Nat → Option String) (identity address : String) :
    Nat → Nat → Option String → Option TpuErrorCode → LeaderDeliveryResult × Nat
  | 0, attempt, lastErr, code =>
    (⟨identity, address, false, lastErr, code, MAX_SEND_ATTEMPTS⟩, attempt)
  | fuel + 1, attempt, _, _ =>
    match outcomes attempt with
    | none => (⟨identity, address, true, none, none, attempt + 1⟩, attempt + 1)
    | some e =>
      sendLoop outcomes identity address fuel (attempt + 1) (some e)
        (some (classify_error e))

/-- `TpuConnectionManager::send_to_leader_with_retry_inner` from
`connection_manager.rs`, modelled against the per-attempt oracle. -/
def send_to_leader_with_retry_inner (outcomes : Nat → Option String)
    (identity address : String) : LeaderDeliveryResult × Nat :=
  sendLoop outcomes identity address MAX_SEND_ATTEMPTS 0 none none

/-- `TransactionConfirmationStatus` from the RPC response model. -/
inductive TransactionConfirmationStatus where
  | Processed
  | Confirmed
  | Finalized
  deriving DecidableEq, Repr

/-- The per-signature status record consumed by
`TpuClient::check_confirmed` (`confirmation_status`, `confirmations`,
`err`). -/
structure TransactionStatus where
  confirmation_status : Option TransactionConfirmationStatus
  confirmations : Option Nat
  err : Option String
  deriving DecidableEq, Repr

/-- `TpuClient::check_confirmed` from `client.rs`, as a function of the
signature-status response vector. -/
def check_confirmed (statuses : List (Option TransactionStatus)) : Bool :=
  match statuses.head? with
  | some (some status) =>
    match status.confirmation_status with
    | some conf =>
      conf == TransactionConfirmationStatus.Confirmed ||
      conf == TransactionConfirmationStatus.Finalized
    | none =>
      if status.confirmations.isSome then true
      else if status.err.isNone then true
      else false
  | _ => false

/-- First-match association-list lookup, modelling `HashMap::get`. -/
def lookupKey {α β : Type} [DecidableEq α] : List (α × β) → α → Option β
  | [], _ => none
  | (k, v) :: rest, key => if k = key then some v else lookupKey rest key

/-- A leader schedule: slot-index-within-epoch to validator identity. -/
abbrev Schedule := List (Nat × String)

/-- `ScheduleTracker` state from `tracker/schedule_tracker.rs`. -/
structure ScheduleTracker where
  curr_epoch_slot_start : Nat
  next_epoch_slot_start : Nat
  curr_schedule : Schedule
  next_schedule : Schedule
  slots_in_epoch : Nat
  deriving DecidableEq, Repr

/-- `ScheduleTracker::slot_to_index`. -/
def ScheduleTracker.slot_to_index (st : ScheduleTracker) (slot : Nat) : Option Nat :=
  if slot < st.curr_epoch_slot_start then none
  else if st.next_epoch_slot_start ≤ slot then none
  else some (slot - st.curr_epoch_slot_start)

/-- `ScheduleTracker::get_leader_for_slot_index`. -/
def ScheduleTracker.get_leader_for_slot_index (st : ScheduleTracker) (slot_index : Nat) :
    Option String :=
  lookupKey st.curr_schedule slot_index

/-- `ScheduleTracker::maybe_rotate`, with the RPC fetch of the new next
schedule passed as an oracle (`none` models a failed fetch, handled by
`unwrap_or_default`).  The u64 `+=` on `next_epoch_slot_start` is
modelled with wraparound. -/
def ScheduleTracker.maybe_rotate (st : ScheduleTracker) (current_slot : Nat)
    (fetched : Option Schedule) : ScheduleTracker × Bool :=
  if current_slot < st.next_epoch_slot_start then (st, false)
  else
    ({ curr_epoch_slot_start := st.next_epoch_slot_start,
       next_epoch_slot_start := (st.next_epoch_slot_start + st.slots_in_epoch) % U64MOD,
       curr_schedule := st.next_schedule,
       next_schedule := fetched.getD [],
       slots_in_epoch := st.slots_in_epoch }, true)

/-- The epoch info record returned by the RPC `get_epoch_info` query. -/
structure EpochInfo where
  absolute_slot : Nat
  slot_index : Nat
  slots_in_epoch : Nat
  deriving DecidableEq, Repr

/-- Unchecked u64 subtraction `a - b`: defined (with the mathematical
value) only when `b ≤ a`; `none` models the underflow (a panic in debug
builds, wraparound in release builds). -/
def u64Sub (a b : Nat) : Option Nat := if b ≤ a then some (a - b) else none

/-- `ScheduleTracker::new` from `tracker/schedule_tracker.rs`: the two
`ensure!` validations, then `curr_start = absolute_slot - slot_index`
by unchecked u64 subtraction, then the two schedule fetches (passed as
oracle results; the current-epoch fetch is mandatory, the next-epoch
fetch falls back to the empty schedule).  The outer `none` means the
subtraction underflowed and no value is produced. -/
def schedule_tracker_new (info : EpochInfo) (curr_fetch next_fetch : Option Schedule) :
    Option (Except String ScheduleTracker) :=
  if info.slots_in_epoch = 0 then some (.error "Invalid slots_in_epoch")
  else if ¬ info.slot_index < info.slots_in_epoch then
    some (.error "slot_index exceeds slots_in_epoch")
  else
    match u64Sub info.absolute_slot info.slot_index with
    | none => none
    | some curr_start =>
      match curr_fetch with
      | none => some (.error "Failed to fetch current epoch schedule")
      | some cs =>
        some (.ok
          { curr_epoch_slot_start := curr_start,
            next_epoch_slot_start := curr_start + info.slots_in_epoch,
            curr_schedule := cs,
            next_schedule := next_fetch.getD [],
            slots_in_epoch := info.slots_in_epoch })

/-- A live QUIC connection handle: an id plus its close reason, absent
while the connection is open (`Connection::close_reason`). -/
structure Conn where
  id : Nat
  close_reason : Option Nat
  deriving DecidableEq, Repr

/-- The connection cache `DashMap<String, CachedConnection>`: the value
`none` is the empty placeholder (`CachedConnection::default`), `some c`
a cached connection. -/
abbrev ConnCache := List (String × Option Conn)

/-- `DashMap::remove` on the model cache. -/
def cacheRemove (cache : ConnCache) (k : String) : ConnCache :=
  cache.filter (fun e => decide (e.1 ≠ k))

/-- `DashMap::insert` on the model cache (replaces any existing entry). -/
def cacheInsert (cache : ConnCache) (k : String) (v : Option Conn) : ConnCache :=
  (k, v) :: cacheRemove cache k

/-- `DashMap::get` on the model cache. -/
def cacheGet (cache : ConnCache) (k : String) : Option (Option Conn) :=
  lookupKey cache k

/-- The external events of one dial in `get_or_create_connection`:
address parsing fails, `endpoint.connect` fails to start, 0-RTT is
available (yielding the connection at once), the awaited full handshake
succeeds, or the awaited full handshake fails. -/
inductive DialOutcome where
  | parseFail
  | connectFail
  | rttOk (c : Conn)
  | fullOk (c : Conn)
  | fullFail
  deriving DecidableEq, Repr

/-- The dial path of `get_or_create_connection`: install the empty
placeholder, then parse /connect/handshake per the oracle.  As in the
source, only the failure of the awaited full handshake removes the
placeholder; the `?` early returns on parse and connect-start failures
leave it in place. -/
def dialAndCache (cache : ConnCache) (address : String) (outcome : DialOutcome) :
    Except Unit Conn × ConnCache :=
  let cache1 := cacheInsert cache address none
  match outcome with
  | .parseFail => (.error (), cache1)
  | .connectFail => (.error (), cache1)
  | .rttOk c => (.ok c, cacheInsert cache1 address (some c))
  | .fullOk c => (.ok c, cacheInsert cache1 address (some c))
  | .fullFail => (.error (), cacheRemove cache1 address)

/-- `TpuConnectionManager::get_or_create_connection` from
`connection_manager.rs`: reuse a cached live connection (present and
without a close reason), otherwise dial. -/
def get_or_create_connection (cache : ConnCache) (address : String)
    (outcome : DialOutcome) : Except Unit Conn × ConnCache :=
  match cacheGet cache address with
  | some (some conn) =>
    if conn.close_reason = none then (.ok conn, cache)
    else dialAndCache cache address outcome
  | _ => dialAndCache cache address outcome

/-- `TpuSockets` from `tracker/leader_tracker.rs`. -/
structure TpuSockets where
  tpu_socket : Option String
  tpu_forwards_socket : Option String
  deriving DecidableEq, Repr

/-- `LeaderInfo` from `tracker/leader_tracker.rs`. -/
structure LeaderInfo where
  identity : String
  tpu_socket : String
  slot : Nat
  deriving DecidableEq, Repr

/-- A consistent snapshot of the three locked states of `LeaderTracker`
(the slots tracker, the schedule tracker, and the identity-to-sockets
map), as read together by `get_future_leaders`. -/
structure LeaderTracker where
  slots_tracker : SlotsTracker
  schedule_tracker : ScheduleTracker
  leader_sockets : List (String × TpuSockets)
  deriving DecidableEq, Repr

/-- u64 `checked_add`. -/
def checkedAdd (a b : Nat) : Option Nat :=
  if a + b < U64MOD then some (a + b) else none

/-- The socket chosen for a leader:
`sockets.tpu_forwards_socket.as_ref().or(sockets.tpu_socket.as_ref())`. -/
def chosenSocket (sockets : TpuSockets) : Option String :=
  match sockets.tpu_forwards_socket with
  | some f => some f
  | none => sockets.tpu_socket

/-- `LeaderTracker::get_slot_position`: position in the 4-slot leader
window. -/
def get_slot_position (slot : Nat) : Nat := slot % 4

/-- The `for i in start..end` loop body of `get_future_leaders`:
`checked_add` overflow and the epoch boundary break; a missing slot
index or schedule entry continues; an already-seen identity continues;
otherwise the identity is marked seen and an entry is emitted when the
socket map holds an address for it. -/
def flLoop (lt : LeaderTracker) (curr : Nat) :
    List Nat → List String → List LeaderInfo
  | [], _ => []
  | i :: rest, seen =>
    match checkedAdd curr i with
    | none => []
    | some target =>
      if lt.schedule_tracker.next_epoch_slot_start ≤ target then []
      else
        match lt.schedule_tracker.slot_to_index target with
        | none => flLoop lt curr rest seen
        | some slot_index =>
          match lt.schedule_tracker.get_leader_for_slot_index slot_index with
          | none => flLoop lt curr rest seen
          | some pk =>
            if pk ∈ seen then flLoop lt curr rest seen
            else
              match lookupKey lt.leader_sockets pk with
              | none => flLoop lt curr rest (pk :: seen)
              | some sockets =>
                match chosenSocket sockets with
                | none => flLoop lt curr rest (pk :: seen)
                | some s => ⟨pk, s, curr⟩ :: flLoop lt curr rest (pk :: seen)

/-- `LeaderTracker::get_future_leaders` from `tracker/leader_tracker.rs`. -/
def get_future_leaders (lt : LeaderTracker) (start stop : Nat) : List LeaderInfo :=
  let curr := lt.slots_tracker.current_slot
  if curr = 0 then []
  else if curr < lt.schedule_tracker.curr_epoch_slot_start ∨
      lt.schedule_tracker.next_epoch_slot_start ≤ curr then []
  else flLoop lt curr (List.range' start (stop - start)) []

/-- `LeaderTracker::get_leaders_with_fanout`. -/
def get_leaders_with_fanout (lt : LeaderTracker) (fanout : Nat) : List LeaderInfo :=
  get_future_leaders lt 0 (fanout * 4)

/-- `LeaderTracker::get_slot_aware_leaders` from
`tracker/leader_tracker.rs`. -/
def get_slot_aware_leaders (lt : LeaderTracker) : List LeaderInfo × Nat :=
  let current_slot := lt.slots_tracker.current_slot
  if current_slot = 0 then ([], 0)
  else
    let slot_position := get_slot_position current_slot
    let num_leaders := if slot_position = 3 then 2 else 1
    let lookahead := num_leaders * 4
    ((get_future_leaders lt 0 lookahead).take num_leaders, slot_position)

/-- The SC3 snapshot: current slot 100, epoch starting at slot 100 with
leader L0 on slots 100–103 and L1 on 104–107; L0 reachable through its
forwards socket, L1 only through its primary socket. -/
def snapC5a : LeaderTracker :=
  { slots_tracker := ⟨[], 100⟩,
    schedule_tracker :=
      ⟨100, 532,
       [(0, "L0"), (1, "L0"), (2, "L0"), (3, "L0"),
        (4, "L1"), (5, "L1"), (6, "L1"), (7, "L1")],
       [], 432⟩,
    leader_sockets :=
      [("L0", ⟨none, some "10.0.0.1:8009"⟩),
       ("L1", ⟨some "10.0.0.2:8009", none⟩)] }

/-- The SC3 snapshot at current slot 103 (last slot of L0's window). -/
def snapC5b : LeaderTracker :=
  { snapC5a with slots_tracker := ⟨[], 103⟩ }

lemma rposition_none_iff (p : SlotEvent → Bool) (l : List SlotEvent) :
    rposition p l = none ↔ l.any p = false := by
  induction l with
  | nil => simp [rposition]
  | cons x xs ih =>
    simp only [rposition, List.any_cons]
    cases h : rposition p xs with
    | some j =>
      constructor
      · intro hc; exact absurd hc (by simp)
      · intro hR
        have hR2 : xs.any p = false := by revert hR; cases p x <;> cases xs.any p <;> simp
        have h2 := ih.mpr hR2
        rw [h] at h2; exact absurd h2 (by simp)
    | none =>
      by_cases hx : p x = true
      · simp [hx]
      · have hx' : p x = false := by revert hx; cases p x <;> simp
        simp [hx', ih.mp h]

lemma rposition_some_spec (p : SlotEvent → Bool) (d : SlotEvent) :
    ∀ (l : List SlotEvent) (j : Nat), rposition p l = some j →
      j < l.length ∧ p (l.getD j d) = true ∧
      ∀ k, j < k → k < l.length → p (l.getD k d) = false := by
  intro l
  induction l with
  | nil => intro j h; simp [rposition] at h
  | cons x xs ih =>
    intro j h
    simp only [rposition] at h
    cases hx : rposition p xs with
    | some j' =>
      rw [hx] at h
      injection h with h'
      subst h'
      obtain ⟨h1, h2, h3⟩ := ih j' hx
      refine ⟨by simpa using Nat.succ_lt_succ h1, by simpa using h2, ?_⟩
      intro k hk1 hk2
      cases k with
      | zero => omega
      | succ k' =>
        simp only [List.getD_cons_succ]
        exact h3 k' (by omega) (by simpa using hk2)
    | none =>
      rw [hx] at h
      by_cases hpx : p x = true
      · rw [if_pos hpx] at h
        injection h with h'
        subst h'
        refine ⟨by simp, by simpa using hpx, ?_⟩
        intro k hk1 hk2
        cases k with
        | zero => omega
        | succ k' =>
          have hk' : k' < xs.length := by simpa using hk2
          have hany : xs.any p = false := (rposition_none_iff p xs).mp hx
          have hmem : xs.getD k' d ∈ xs := by
            rw [List.getD_eq_getElem xs d hk']
            exact List.getElem_mem hk'
          have hfa := List.any_eq_false.mp hany _ hmem
          simp only [List.getD_cons_succ]
          revert hfa; cases p (xs.getD k' d) <;> simp
      · rw [if_neg hpx] at h; cases h

lemma pickIndex_eq_specGreatestIdx (sorted : List SlotEvent) (bound fb : Nat) :
    pickIndex sorted bound fb = specGreatestIdx sorted bound fb := by
  unfold pickIndex specGreatestIdx
  cases h : rposition (fun e => e.slot ≤ bound) sorted with
  | none =>
    rw [(rposition_none_iff _ _).mp h]
    simp
  | some j =>
    obtain ⟨h1, h2, h3⟩ := rposition_some_spec _ (.Start 0) _ _ h
    have hany : sorted.any (fun e => e.slot ≤ bound) = true := by
      refine List.any_eq_true.mpr ⟨sorted.getD j (.Start 0), ?_, h2⟩
      rw [List.getD_eq_getElem sorted _ h1]
      exact List.getElem_mem h1
    rw [hany, if_pos rfl]
    have hle : j ≤ Nat.findGreatest
        (fun i => (sorted.getD i (.Start 0)).slot ≤ bound) (sorted.length - 1) :=
      Nat.le_findGreatest (by omega) (by simpa using h2)
    have hge : Nat.findGreatest
        (fun i => (sorted.getD i (.Start 0)).slot ≤ bound) (sorted.length - 1) ≤ j := by
      by_contra hcon
      push_neg at hcon
      have hgl : Nat.findGreatest
          (fun i => (sorted.getD i (.Start 0)).slot ≤ bound) (sorted.length - 1)
          ≤ sorted.length - 1 := Nat.findGreatest_le _
      have hP := Nat.findGreatest_spec
        (P := fun i => (sorted.getD i (.Start 0)).slot ≤ bound)
        (n := sorted.length - 1) (m := j) (by omega) (by simpa using h2)
      have hF := h3 _ hcon (by omega)
      simp only [decide_eq_false_iff_not] at hF
      exact hF hP
    rw [Option.getD_some]
    exact Nat.le_antisymm hle hge

lemma length_insertEvent (x : SlotEvent) (l : List SlotEvent) :
    (insertEvent x l).length = l.length + 1 := by
  induction l with
  | nil => rfl
  | cons y ys ih =>
    unfold insertEvent
    split
    · simp
    · simp [ih]

lemma length_sortEvents (l : List SlotEvent) :
    (sortEvents l).length = l.length := by
  induction l with
  | nil => rfl
  | cons x xs ih => simp [sortEvents, length_insertEvent, ih]

lemma mem_insertEvent (a x : SlotEvent) (l : List SlotEvent) :
    a ∈ insertEvent x l ↔ a = x ∨ a ∈ l := by
  induction l with
  | nil => simp [insertEvent]
  | cons y ys ih =>
    unfold insertEvent
    split
    · simp
    · simp only [List.mem_cons, ih]
      tauto

lemma mem_sortEvents (a : SlotEvent) (l : List SlotEvent) :
    a ∈ sortEvents l ↔ a ∈ l := by
  induction l with
  | nil => simp [sortEvents]
  | cons x xs ih => simp [sortEvents, mem_insertEvent, ih]

lemma pickIndex_lt (sorted : List SlotEvent) (bound fb : Nat)
    (hfb : fb < sorted.length) : pickIndex sorted bound fb < sorted.length := by
  unfold pickIndex
  cases h : rposition (fun e => e.slot ≤ bound) sorted with
  | none => simpa using hfb
  | some j =>
    have := (rposition_some_spec _ (.Start 0) _ _ h).1
    simpa using this

/-- The code estimator agrees with the spec's formulation whenever every
slot in the ring is small enough that none of the estimator's u64
additions (median plus tail offset, plus the 48 skip cap, plus one on
the `End` branch) wraps. -/
lemma estimate_eq_specEstimate (ring : List SlotEvent) (current : Nat)
    (hb : ∀ e ∈ ring, e.slot + ring.length + MAX_SLOT_SKIP_DISTANCE < U64MOD) :
    estimate_current_slot ring current = specEstimate ring current := by
  by_cases hE : ring.isEmpty
  · simp [estimate_current_slot, specEstimate, hE]
  · have hlen : (sortEvents ring).length = ring.length := length_sortEvents ring
    have hpos : 0 < ring.length := by
      cases ring with
      | nil => simp at hE
      | cons a l => simp
    have hmid : ((sortEvents ring).length - 1) / 2 < (sortEvents ring).length := by
      omega
    have hmedmem : (sortEvents ring).getD (((sortEvents ring).length - 1) / 2)
        (SlotEvent.Start 0) ∈ ring := by
      rw [← mem_sortEvents _ ring, List.getD_eq_getElem _ _ hmid]
      exact List.getElem_mem hmid
    have hbmed := hb _ hmedmem
    simp only [MAX_SLOT_SKIP_DISTANCE] at hbmed
    have e2 : ((((sortEvents ring).getD (((sortEvents ring).length - 1) / 2)
            (SlotEvent.Start 0)).slot
          + ((sortEvents ring).length - 1 - ((sortEvents ring).length - 1) / 2)) % U64MOD
          + 48) % U64MOD
        = ((sortEvents ring).getD (((sortEvents ring).length - 1) / 2)
            (SlotEvent.Start 0)).slot
          + ((sortEvents ring).length - 1 - ((sortEvents ring).length - 1) / 2) + 48 := by
      have h1 : ((sortEvents ring).getD (((sortEvents ring).length - 1) / 2)
            (SlotEvent.Start 0)).slot
          + ((sortEvents ring).length - 1 - ((sortEvents ring).length - 1) / 2)
          < U64MOD := by omega
      have h2 : ((sortEvents ring).getD (((sortEvents ring).length - 1) / 2)
            (SlotEvent.Start 0)).slot
          + ((sortEvents ring).length - 1 - ((sortEvents ring).length - 1) / 2) + 48
          < U64MOD := by omega
      rw [Nat.mod_eq_of_lt h1, Nat.mod_eq_of_lt h2]
    simp only [estimate_current_slot, specEstimate, hE, if_false, Bool.false_eq_true,
      MAX_SLOT_SKIP_DISTANCE, pickIndex_eq_specGreatestIdx, e2]
    set sorted := sortEvents ring with hsorted
    set bound := (sorted.getD ((sorted.length - 1) / 2) (.Start 0)).slot +
      (sorted.length - 1 - (sorted.length - 1) / 2) + 48 with hbound
    set pick := specGreatestIdx sorted bound ((sorted.length - 1) / 2) with hpick
    have hpicklt : pick < sorted.length := by
      rw [hpick, ← pickIndex_eq_specGreatestIdx]
      exact pickIndex_lt sorted bound _ (by omega)
    have hmem : sorted.getD pick (.Start 0) ∈ ring := by
      rw [← mem_sortEvents _ ring, ← hsorted, List.getD_eq_getElem sorted _ hpicklt]
      exact List.getElem_mem hpicklt
    cases hs : (sorted.getD pick (.Start 0)).is_start with
    | true => simp [hs]
    | false =>
      have hb0 := hb _ hmem
      have hb2 : (sorted.getD pick (.Start 0)).slot + 1 < U64MOD := by
        simp only [MAX_SLOT_SKIP_DISTANCE] at hb0
        omega
      have hsat : satAdd1 (sorted.getD pick (.Start 0)).slot
          = (sorted.getD pick (.Start 0)).slot + 1 := by
        unfold satAdd1
        exact Nat.min_eq_left (Nat.le_pred_of_lt hb2)
      simp only [hs, Bool.false_eq_true, if_false]
      simpa using hsat

/-- Claim C1: the slot estimator computes its estimate exactly as the
spec formulates it — sort by (slot ascending, Start before End), take
`expected = events[mid].slot + (n-1-mid)` with `mid = (n-1) div 2`, cap
at `expected + 48`, pick the greatest index whose slot is within the
cap (falling back to `mid`), return that event's slot plus one for an
`End` — under the disclosed no-overflow side condition that every slot
in the ring leaves room for the ring length plus the 48 skip cap below
`2^64` (the source's u64 additions wrap, or panic in debug builds,
beyond that); and on the concrete rings: recording Start then End for
slots 1..12 yields current slot 13, for {1, 100} yields 2, for
{1, 2, 100} yields 3. -/
theorem c1_estimator_matches_spec :
    (∀ (ring : List SlotEvent) (current : Nat),
      (∀ e ∈ ring, e.slot + ring.length + MAX_SLOT_SKIP_DISTANCE < U64MOD) →
      estimate_current_slot ring current = specEstimate ring current) ∧
    (tracker_from_slots (List.range' 1 12)).current_slot = 13 ∧
    (tracker_from_slots [1, 100]).current_slot = 2 ∧
    (tracker_from_slots [1, 2, 100]).current_slot = 3 :=
  ⟨estimate_eq_specEstimate, by decide, by decide, by decide⟩

theorem c1_estimator_matches_spec_witness :
    (∀ e ∈ [SlotEvent.Start 5, SlotEvent.End 5],
      e.slot + ([SlotEvent.Start 5, SlotEvent.End 5] : List SlotEvent).length
        + MAX_SLOT_SKIP_DISTANCE < U64MOD) ∧
    estimate_current_slot [SlotEvent.Start 5, SlotEvent.End 5] 0
      = specEstimate [SlotEvent.Start 5, SlotEvent.End 5] 0 :=
  ⟨by decide, c1_estimator_matches_spec.1 [SlotEvent.Start 5, SlotEvent.End 5] 0 (by decide)⟩

/-- Claim C8 counterexample: starting from a tracker whose current slot
is 10, `record_monotonic 5` followed by `record_monotonic 3` (with
3 ≤ 5) leaves the current slot at 10, not at 5 as the claim requires
for any tracker state. -/
theorem c8_chain_counterexample :
    (3 : Nat) ≤ 5 ∧
    ((SlotsTracker.record_monotonic
      (SlotsTracker.record_monotonic ⟨[], 10⟩ 5) 3).current_slot = 10) ∧
    (10 : Nat) ≠ 5 := by decide

/-- Claim C8 (amended): `record_monotonic s` replaces the state with
ring `[Start s]` and current slot `s` when `s > current_slot` and
changes nothing otherwise; the current slot never decreases across
calls; and `record_monotonic a` then `record_monotonic b` with `b ≤ a`
leaves `current_slot = a` provided the starting current slot is at most
`a` (so in particular from a fresh tracker). -/
theorem c8_record_monotonic :
    (∀ (st : SlotsTracker) (s : Nat), st.current_slot < s →
      st.record_monotonic s = ⟨[SlotEvent.Start s], s⟩) ∧
    (∀ (st : SlotsTracker) (s : Nat), s ≤ st.current_slot →
      st.record_monotonic s = st) ∧
    (∀ (st : SlotsTracker) (s : Nat),
      st.current_slot ≤ (st.record_monotonic s).current_slot) ∧
    (∀ (st : SlotsTracker) (a b : Nat), b ≤ a → st.current_slot ≤ a →
      ((st.record_monotonic a).record_monotonic b).current_slot = a) := by
  refine ⟨?_, ?_, ?_, ?_⟩
  · intro st s h
    rw [SlotsTracker.record_monotonic, if_neg (Nat.not_le.mpr h)]
  · intro st s h
    rw [SlotsTracker.record_monotonic, if_pos h]
  · intro st s
    by_cases h : s ≤ st.current_slot
    · simp [SlotsTracker.record_monotonic, h]
    · rw [SlotsTracker.record_monotonic, if_neg h]
      show st.current_slot ≤ s
      exact le_of_not_le h
  · intro st a b hba hca
    by_cases h : a ≤ st.current_slot
    · have hac : st.current_slot = a := le_antisymm hca h
      have e1 : st.record_monotonic a = st := by
        rw [SlotsTracker.record_monotonic, if_pos h]
      rw [e1, SlotsTracker.record_monotonic, if_pos (show b ≤ st.current_slot from hac ▸ hba)]
      exact hac
    · have e1 : st.record_monotonic a = ⟨[SlotEvent.Start a], a⟩ := by
        rw [SlotsTracker.record_monotonic, if_neg h]
      rw [e1, SlotsTracker.record_monotonic,
        if_pos (show b ≤ (⟨[SlotEvent.Start a], a⟩ : SlotsTracker).current_slot from hba)]

theorem c8_record_monotonic_witness :
    (3 : Nat) ≤ 7 ∧ SlotsTracker.new.current_slot ≤ 7 ∧
    ((SlotsTracker.new.record_monotonic 7).record_monotonic 3).current_slot = 7 :=
  ⟨by decide, by decide,
    c8_record_monotonic.2.2.2 SlotsTracker.new 7 3 (by decide) (by decide)⟩

/-- Claim C7: signature extraction fails on an empty buffer and on a
zero signature count, fails with the too-short error when byte 0 is
nonzero but fewer than 65 bytes are present, and otherwise returns
exactly bytes 1..65, independent of the remaining contents. -/
theorem c7_extract_signature :
    (extract_signature [] = .error "Empty transaction data") ∧
    (∀ tx : List Nat, tx ≠ [] → tx.headD 0 = 0 →
      extract_signature tx = .error "Transaction has no signatures") ∧
    (∀ tx : List Nat, tx ≠ [] → tx.headD 0 ≠ 0 → tx.length < 65 →
      extract_signature tx = .error "Transaction too short to contain signature") ∧
    (∀ tx : List Nat, tx.headD 0 ≠ 0 → 65 ≤ tx.length →
      extract_signature tx = .ok ((tx.drop 1).take 64)) ∧
    (∀ (sig rest rest' : List Nat) (b0 : Nat), b0 ≠ 0 → sig.length = 64 →
      extract_signature (b0 :: (sig ++ rest)) = .ok sig ∧
      extract_signature (b0 :: (sig ++ rest'))
        = extract_signature (b0 :: (sig ++ rest))) := by
  refine ⟨rfl, ?_, ?_, ?_, ?_⟩
  · intro tx hne h0
    obtain ⟨b0, rest, rfl⟩ := List.exists_cons_of_ne_nil hne
    simp only [List.headD_cons] at h0
    subst h0
    rfl
  · intro tx hne h0 hlen
    obtain ⟨b0, rest, rfl⟩ := List.exists_cons_of_ne_nil hne
    simp only [List.headD_cons] at h0
    rw [extract_signature,
      show ((b0 :: rest).isEmpty) = false from rfl]
    simp only [Bool.false_eq_true, if_false, List.headD_cons]
    rw [if_neg h0, if_pos (show (b0 :: rest).length < 1 + 64 from by omega)]
  · intro tx h0 hlen
    have hne : tx ≠ [] := by
      intro hc
      rw [hc] at hlen
      simp at hlen
    obtain ⟨b0, rest, rfl⟩ := List.exists_cons_of_ne_nil hne
    simp only [List.headD_cons] at h0
    rw [extract_signature,
      show ((b0 :: rest).isEmpty) = false from rfl]
    simp only [Bool.false_eq_true, if_false, List.headD_cons]
    rw [if_neg h0, if_neg (show ¬ (b0 :: rest).length < 1 + 64 from by omega)]
  · intro sig rest rest' b0 hb0 hsig
    have hok : ∀ r : List Nat, extract_signature (b0 :: (sig ++ r)) = .ok sig := by
      intro r
      rw [extract_signature,
        show ((b0 :: (sig ++ r)).isEmpty) = false from rfl]
      simp only [Bool.false_eq_true, if_false, List.headD_cons]
      rw [if_neg hb0,
        if_neg (show ¬ (b0 :: (sig ++ r)).length < 1 + 64 from by
          simp [List.length_append, hsig])]
      show Except.ok ((sig ++ r).take 64) = Except.ok sig
      rw [List.take_left' hsig]
    exact ⟨hok rest, by rw [hok rest, hok rest']⟩

theorem c7_extract_signature_witness :
    (1 : Nat) ≠ 0 ∧
    extract_signature (1 :: List.replicate 64 (7 : Nat))
      = .ok (((1 :: List.replicate 64 (7 : Nat)).drop 1).take 64) :=
  ⟨by decide,
    c7_extract_signature.2.2.2.1 (1 :: List.replicate 64 (7 : Nat)) (by decide) (by decide)⟩

/-- Claim C2 (code-bug exhibit): when every attempt fails with
"access denied" — classified VALIDATOR_UNREACHABLE, which is not
retryable — the retry loop still performs all 3 attempts and reports
attempts = 3, although the claim requires that no further attempt
follow a non-retryable error; the first four codes are exactly the
retryable ones. -/
theorem c2_nonretryable_still_retries :
    classify_error "access denied" = TpuErrorCode.ValidatorUnreachable ∧
    TpuErrorCode.ValidatorUnreachable.is_retryable = false ∧
    (send_to_leader_with_retry_inner (fun _ => some "access denied") "id" "addr").2 = 3 ∧
    (send_to_leader_with_retry_inner (fun _ => some "access denied") "id" "addr").1.attempts
      = 3 ∧
    TpuErrorCode.ConnectionFailed.is_retryable = true ∧
    TpuErrorCode.StreamClosed.is_retryable = true ∧
    TpuErrorCode.RateLimited.is_retryable = true ∧
    TpuErrorCode.Timeout.is_retryable = true ∧
    TpuErrorCode.NoLeaders.is_retryable = false ∧
    TpuErrorCode.ZeroRttRejected.is_retryable = false := by
  refine ⟨by decide, rfl, rfl, rfl, rfl, rfl, rfl, rfl, rfl, rfl⟩

/-- Claim C3 counterexample: a present status with confirmation status
Processed, a confirmations count, and no error is reported NOT
confirmed, although the claim requires success for any present status
whose err field is None. -/
theorem c3_counterexample :
    (TransactionStatus.mk (some .Processed) (some 5) none).err = none ∧
    check_confirmed [some (TransactionStatus.mk (some .Processed) (some 5) none)]
      = false := by
  exact ⟨rfl, rfl⟩

/-- Claim C3 (amended): the confirm check reports success exactly when
the first status is present and either its confirmation status is
Confirmed or Finalized, or its confirmation status is absent and a
confirmations count is reported or the err field is None.  The looser
fallbacks apply only when `confirmation_status` is absent. -/
theorem c3_check_confirmed :
    ∀ statuses : List (Option TransactionStatus),
      check_confirmed statuses = true ↔
      ∃ status, statuses.head? = some (some status) ∧
        ((status.confirmation_status = some .Confirmed ∨
          status.confirmation_status = some .Finalized) ∨
         (status.confirmation_status = none ∧
          (status.confirmations ≠ none ∨ status.err = none))) := by
  intro statuses
  unfold check_confirmed
  cases h : statuses.head? with
  | none => simp
  | some o =>
    cases o with
    | none => simp
    | some status =>
      simp only [Option.some.injEq]
      cases hc : status.confirmation_status with
      | some conf =>
        cases conf <;>
          simp [hc, Option.isSome_iff_exists, Option.isNone_iff_eq_none]
      | none =>
        by_cases hcf : status.confirmations.isSome
        · obtain ⟨n, hn⟩ := Option.isSome_iff_exists.mp hcf
          simp [hc, hcf, hn]
        · by_cases he : status.err.isNone
          · simp [hc, hcf, he, Option.isNone_iff_eq_none.mp he]
          · have h1 : status.confirmations = none := by
              revert hcf
              cases status.confirmations <;> simp
            have h2 : status.err ≠ none := by
              revert he
              cases status.err <;> simp
            simp [hc, h1, h2]

/-- Claim C4: `maybe_rotate` reports no rotation and leaves the state
unchanged exactly when `curr_slot < next_start`; otherwise it shifts
`curr_start` to the old `next_start`, advances `next_start` by
`slots_in_epoch`, promotes the prefetched schedule, reports a rotation,
and preserves the invariant
`curr_start < next_start = curr_start + slots_in_epoch`. -/
theorem c4_maybe_rotate (st : ScheduleTracker) (s : Nat) (fetched : Option Schedule)
    (hInv : st.next_epoch_slot_start = st.curr_epoch_slot_start + st.slots_in_epoch ∧
      st.curr_epoch_slot_start < st.next_epoch_slot_start)
    (hNoOv : st.next_epoch_slot_start + st.slots_in_epoch < U64MOD) :
    (((st.maybe_rotate s fetched).2 = false ∧ (st.maybe_rotate s fetched).1 = st) ↔
      s < st.next_epoch_slot_start) ∧
    (st.next_epoch_slot_start ≤ s →
      (st.maybe_rotate s fetched).2 = true ∧
      (st.maybe_rotate s fetched).1.curr_epoch_slot_start = st.next_epoch_slot_start ∧
      (st.maybe_rotate s fetched).1.next_epoch_slot_start
        = st.next_epoch_slot_start + st.slots_in_epoch ∧
      (st.maybe_rotate s fetched).1.curr_schedule = st.next_schedule ∧
      (st.maybe_rotate s fetched).1.slots_in_epoch = st.slots_in_epoch ∧
      (st.maybe_rotate s fetched).1.curr_epoch_slot_start
        < (st.maybe_rotate s fetched).1.next_epoch_slot_start ∧
      (st.maybe_rotate s fetched).1.next_epoch_slot_start
        = (st.maybe_rotate s fetched).1.curr_epoch_slot_start
          + (st.maybe_rotate s fetched).1.slots_in_epoch) := by
  obtain ⟨hEq, hLt⟩ := hInv
  have hPos : 0 < st.slots_in_epoch := by omega
  by_cases h : s < st.next_epoch_slot_start
  · constructor
    · simp [ScheduleTracker.maybe_rotate, h]
    · intro hge
      omega
  · have hMod : (st.next_epoch_slot_start + st.slots_in_epoch) % U64MOD
        = st.next_epoch_slot_start + st.slots_in_epoch := Nat.mod_eq_of_lt hNoOv
    constructor
    · simp [ScheduleTracker.maybe_rotate, h]
    · intro _
      have e1 : st.maybe_rotate s fetched =
          ({ curr_epoch_slot_start := st.next_epoch_slot_start,
             next_epoch_slot_start := (st.next_epoch_slot_start + st.slots_in_epoch) % U64MOD,
             curr_schedule := st.next_schedule,
             next_schedule := fetched.getD [],
             slots_in_epoch := st.slots_in_epoch }, true) := by
        rw [ScheduleTracker.maybe_rotate, if_neg h]
      rw [e1]
      refine ⟨rfl, rfl, hMod, rfl, rfl, ?_, ?_⟩
      · show st.next_epoch_slot_start
          < (st.next_epoch_slot_start + st.slots_in_epoch) % U64MOD
        rw [hMod]
        omega
      · show (st.next_epoch_slot_start + st.slots_in_epoch) % U64MOD
          = st.next_epoch_slot_start + st.slots_in_epoch
        exact hMod

theorem c4_maybe_rotate_witness :
    ((1432 : Nat) = 1000 + 432 ∧ (1000 : Nat) < 1432) ∧
    (1432 : Nat) + 432 < U64MOD ∧
    ((((ScheduleTracker.mk 1000 1432 [] [(0, "X")] 432).maybe_rotate 1432 none).2 = false ∧
      ((ScheduleTracker.mk 1000 1432 [] [(0, "X")] 432).maybe_rotate 1432 none).1
        = ScheduleTracker.mk 1000 1432 [] [(0, "X")] 432) ↔ (1432 : Nat) < 1432) :=
  ⟨⟨by decide, by decide⟩, by decide,
    (c4_maybe_rotate (ScheduleTracker.mk 1000 1432 [] [(0, "X")] 432) 1432 none
      ⟨by decide, by decide⟩ (by decide)).1⟩

/-- Claim C10: construction validates only `slots_in_epoch > 0` and
`slot_index < slots_in_epoch`; when additionally
`slot_index ≤ absolute_slot` the unchecked subtraction is total and
yields `curr_start = absolute_slot - slot_index`, while under the two
stated checks alone the subtraction can underflow — witnessed by
`absolute_slot = 0, slot_index = 1, slots_in_epoch = 2`, which passes
both checks. -/
theorem c10_new_underflow :
    (∀ (info : EpochInfo) (cf nf : Option Schedule) (cs : Schedule),
      0 < info.slots_in_epoch → info.slot_index < info.slots_in_epoch →
      info.slot_index ≤ info.absolute_slot → cf = some cs →
      schedule_tracker_new info cf nf = some (.ok
        { curr_epoch_slot_start := info.absolute_slot - info.slot_index,
          next_epoch_slot_start := info.absolute_slot - info.slot_index
            + info.slots_in_epoch,
          curr_schedule := cs,
          next_schedule := nf.getD [],
          slots_in_epoch := info.slots_in_epoch })) ∧
    (∀ (info : EpochInfo) (cf nf : Option Schedule),
      0 < info.slots_in_epoch → info.slot_index < info.slots_in_epoch →
      info.absolute_slot < info.slot_index →
      schedule_tracker_new info cf nf = none) ∧
    (0 < (2 : Nat) ∧ (1 : Nat) < 2 ∧
      schedule_tracker_new ⟨0, 1, 2⟩ (some []) none = none) := by
  refine ⟨?_, ?_, by decide, by decide, rfl⟩
  · intro info cf nf cs hpos hidx hle hcf
    subst hcf
    rw [schedule_tracker_new, if_neg (by omega), if_neg (by simpa using hidx),
      show u64Sub info.absolute_slot info.slot_index
        = some (info.absolute_slot - info.slot_index) from by
          rw [u64Sub, if_pos hle]]
  · intro info cf nf hpos hidx hlt
    rw [schedule_tracker_new, if_neg (by omega), if_neg (by simpa using hidx),
      show u64Sub info.absolute_slot info.slot_index = none from by
        rw [u64Sub, if_neg (by omega)]]

theorem c10_new_underflow_witness :
    schedule_tracker_new ⟨10, 3, 5⟩ (some []) none = some (.ok
      { curr_epoch_slot_start := 10 - 3,
        next_epoch_slot_start := 10 - 3 + 5,
        curr_schedule := [],
        next_schedule := (none : Option Schedule).getD [],
        slots_in_epoch := 5 }) :=
  c10_new_underflow.1 ⟨10, 3, 5⟩ (some []) none [] (by decide) (by decide) (by decide) rfl

/-- Claim C9 counterexample: on a cache miss with an unparseable
address, the dial fails and the error is propagated, but the empty
placeholder installed for the address REMAINS in the cache. -/
theorem c9_counterexample :
    (get_or_create_connection [] "not-an-address" .parseFail).1 = .error () ∧
    cacheGet (get_or_create_connection [] "not-an-address" .parseFail).2
      "not-an-address" = some none := ⟨rfl, rfl⟩

lemma cacheGet_cacheRemove (cache : ConnCache) (k : String) :
    cacheGet (cacheRemove cache k) k = none := by
  induction cache with
  | nil => rfl
  | cons e rest ih =>
    obtain ⟨k', v'⟩ := e
    by_cases h : k' = k
    · simp only [cacheRemove, List.filter_cons] at ih ⊢
      rw [show (decide ((k', v').1 ≠ k)) = false from by simp [h]]
      exact ih
    · simp only [cacheRemove, List.filter_cons] at ih ⊢
      rw [show (decide ((k', v').1 ≠ k)) = true from by simp [h]]
      show lookupKey ((k', v') :: rest.filter (fun e => decide (e.1 ≠ k))) k = none
      rw [lookupKey, if_neg h]
      exact ih

lemma cacheGet_cacheInsert (cache : ConnCache) (k : String) (v : Option Conn) :
    cacheGet (cacheInsert cache k v) k = some v := by
  simp [cacheGet, cacheInsert, lookupKey]

/-- Claim C9 (amended): when the cache lookup finds no live connection,
a failed awaited full handshake removes the placeholder and propagates
the error; an address-parse failure or a connect-start failure also
propagates the error but leaves the empty placeholder in the cache; a
successful dial stores the live connection. -/
theorem c9_dial_failure_cache (cache : ConnCache) (address : String)
    (outcome : DialOutcome)
    (hmiss : ∀ conn, cacheGet cache address = some (some conn) →
      conn.close_reason ≠ none) :
    (outcome = .fullFail →
      (get_or_create_connection cache address outcome).1 = .error () ∧
      cacheGet (get_or_create_connection cache address outcome).2 address = none) ∧
    (outcome = .parseFail ∨ outcome = .connectFail →
      (get_or_create_connection cache address outcome).1 = .error () ∧
      cacheGet (get_or_create_connection cache address outcome).2 address
        = some none) ∧
    (∀ c, outcome = .rttOk c ∨ outcome = .fullOk c →
      (get_or_create_connection cache address outcome).1 = .ok c ∧
      cacheGet (get_or_create_connection cache address outcome).2 address
        = some (some c)) := by
  have hdial : get_or_create_connection cache address outcome
      = dialAndCache cache address outcome := by
    rw [get_or_create_connection]
    cases hg : cacheGet cache address with
    | none => rfl
    | some o =>
      cases o with
      | none => rfl
      | some conn =>
        show (if conn.close_reason = none then (Except.ok conn, cache)
          else dialAndCache cache address outcome) = dialAndCache cache address outcome
        rw [if_neg (hmiss conn hg)]
  rw [hdial]
  refine ⟨?_, ?_, ?_⟩
  · rintro rfl
    exact ⟨rfl, by
      show cacheGet (cacheRemove (cacheInsert cache address none) address) address = none
      exact cacheGet_cacheRemove _ _⟩
  · rintro (rfl | rfl)
    · exact ⟨rfl, cacheGet_cacheInsert cache address none⟩
    · exact ⟨rfl, cacheGet_cacheInsert cache address none⟩
  · rintro c (rfl | rfl)
    · exact ⟨rfl, cacheGet_cacheInsert _ address (some c)⟩
    · exact ⟨rfl, cacheGet_cacheInsert _ address (some c)⟩

theorem c9_dial_failure_cache_witness :
    (get_or_create_connection [] "10.0.0.9:8009" .fullFail).1 = .error () ∧
    cacheGet (get_or_create_connection [] "10.0.0.9:8009" .fullFail).2
      "10.0.0.9:8009" = none :=
  (c9_dial_failure_cache [] "10.0.0.9:8009" .fullFail
    (by intro conn h; simp [cacheGet, lookupKey] at h)).1 rfl

/-- Claim C5: with a nonzero current slot `s`, `get_slot_aware_leaders`
returns `pos = s mod 4` together with the first leader of
`get_future_leaders 0 4` when `pos ∈ {0,1,2}` and the first two leaders
of `get_future_leaders 0 8` when `pos = 3`; with current slot 0 it
returns no leaders; and concretely, at slot 100 with L0 on 100–103 and
L1 on 104–107 it returns ([L0], 0), and at slot 103 it returns
([L0, L1], 3). -/
theorem c5_slot_aware_leaders :
    (∀ lt : LeaderTracker, lt.slots_tracker.current_slot = 0 →
      get_slot_aware_leaders lt = ([], 0)) ∧
    (∀ lt : LeaderTracker, lt.slots_tracker.current_slot ≠ 0 →
      get_slot_aware_leaders lt =
        (if lt.slots_tracker.current_slot % 4 = 3
         then ((get_future_leaders lt 0 8).take 2, 3)
         else ((get_future_leaders lt 0 4).take 1,
           lt.slots_tracker.current_slot % 4))) ∧
    get_slot_aware_leaders snapC5a = ([⟨"L0", "10.0.0.1:8009", 100⟩], 0) ∧
    get_slot_aware_leaders snapC5b
      = ([⟨"L0", "10.0.0.1:8009", 103⟩, ⟨"L1", "10.0.0.2:8009", 103⟩], 3) := by
  refine ⟨?_, ?_, by decide, by decide⟩
  · intro lt h
    simp [get_slot_aware_leaders, h]
  · intro lt h
    by_cases hp : lt.slots_tracker.current_slot % 4 = 3
    · simp [get_slot_aware_leaders, get_slot_position, h, hp]
    · simp [get_slot_aware_leaders, get_slot_position, h, hp]

theorem c5_slot_aware_leaders_witness :
    snapC5a.slots_tracker.current_slot ≠ 0 ∧
    get_slot_aware_leaders snapC5a =
      (if snapC5a.slots_tracker.current_slot % 4 = 3
       then ((get_future_leaders snapC5a 0 8).take 2, 3)
       else ((get_future_leaders snapC5a 0 4).take 1,
         snapC5a.slots_tracker.current_slot % 4)) :=
  ⟨by decide, c5_slot_aware_leaders.2.1 snapC5a (by decide)⟩

lemma flLoop_sound (lt : LeaderTracker) (curr : Nat) (offsets : List Nat) :
    ∀ seen : List String,
      (((flLoop lt curr offsets seen).map LeaderInfo.identity).Nodup ∧
       ∀ l ∈ flLoop lt curr offsets seen,
         l.identity ∉ seen ∧
         ∃ sockets, lookupKey lt.leader_sockets l.identity = some sockets ∧
           some l.tpu_socket = chosenSocket sockets) := by
  induction offsets with
  | nil =>
    intro seen
    exact ⟨by simp [flLoop], by simp [flLoop]⟩
  | cons i rest ih =>
    intro seen
    simp only [flLoop]
    split
    · exact ⟨by simp, by simp⟩
    · split
      · exact ⟨by simp, by simp⟩
      · split
        · exact ih seen
        · split
          · exact ih seen
          · rename_i pk hpk
            split
            · exact ih seen
            · rename_i hseen
              split
              · obtain ⟨ihn, ihm⟩ := ih (pk :: seen)
                refine ⟨ihn, ?_⟩
                intro l hl
                obtain ⟨hn, hrest⟩ := ihm l hl
                exact ⟨fun hc => hn (List.mem_cons_of_mem _ hc), hrest⟩
              · rename_i sockets hsk
                split
                · obtain ⟨ihn, ihm⟩ := ih (pk :: seen)
                  refine ⟨ihn, ?_⟩
                  intro l hl
                  obtain ⟨hn, hrest⟩ := ihm l hl
                  exact ⟨fun hc => hn (List.mem_cons_of_mem _ hc), hrest⟩
                · rename_i s hcs
                  obtain ⟨ihn, ihm⟩ := ih (pk :: seen)
                  constructor
                  · simp only [List.map_cons, List.nodup_cons]
                    refine ⟨?_, ihn⟩
                    intro hmem
                    obtain ⟨l, hl, hid⟩ := List.mem_map.mp hmem
                    have hni := (ihm l hl).1
                    rw [hid] at hni
                    exact hni (List.mem_cons_self _ _)
                  · intro l hl
                    rcases List.mem_cons.mp hl with rfl | hl'
                    · exact ⟨hseen, sockets, hsk, hcs.symm⟩
                    · obtain ⟨hn, hrest⟩ := ihm l hl'
                      exact ⟨fun hc => hn (List.mem_cons_of_mem _ hc), hrest⟩

/-- Claim C6: for every `start` and `stop`, the result of
`get_future_leaders` contains no two entries with the same identity,
and every entry's socket comes from its socket-map entry — the forwards
address when present, the primary address otherwise — so scheduled
leaders without a socket-map entry never appear. -/
theorem c6_future_leaders_dedup_sockets (lt : LeaderTracker) (start stop : Nat) :
    ((get_future_leaders lt start stop).map LeaderInfo.identity).Nodup ∧
    ∀ l ∈ get_future_leaders lt start stop,
      ∃ sockets, lookupKey lt.leader_sockets l.identity = some sockets ∧
        some l.tpu_socket = chosenSocket sockets := by
  simp only [get_future_leaders]
  split
  · exact ⟨by simp, by simp⟩
  · split
    · exact ⟨by simp, by simp⟩
    · obtain ⟨hn, hm⟩ := flLoop_sound lt lt.slots_tracker.current_slot
        (List.range' start (stop - start)) []
      exact ⟨hn, fun l hl => (hm l hl).2⟩

theorem c6_future_leaders_dedup_sockets_witness :
    ((get_future_leaders snapC5b 0 8).map LeaderInfo.identity).Nodup ∧
    ∃ sockets, lookupKey snapC5b.leader_sockets
        (LeaderInfo.mk "L1" "10.0.0.2:8009" 103).identity = some sockets ∧
      some (LeaderInfo.mk "L1" "10.0.0.2:8009" 103).tpu_socket = chosenSocket sockets :=
  ⟨(c6_future_leaders_dedup_sockets snapC5b 0 8).1,
    (c6_future_leaders_dedup_sockets snapC5b 0 8).2
      (LeaderInfo.mk "L1" "10.0.0.2:8009" 103) (by decide)⟩

end Fastlane

